import Mathlib

/-!
# Verification of `qobuz2red.py`

Shallow embedding of the album ingestion and publication pipeline of
`qobuz2red.py`.  Pure helpers (piece-size policy, release-type heuristic,
string formatting) are translated directly; file- and process-effectful
functions are modelled by passing the relevant filesystem / process state
explicitly (a batch file becomes its list of lines, a directory becomes a
list of named entries, an external call becomes its recorded outcome).
-/

namespace Qobuz2Red

/-! ## Python string primitives

`str.strip()` / `str.rstrip()` with no argument strip whitespace; the batch
files hold ASCII URLs, so we model the ASCII whitespace characters Python
strips (space, tab, newline, carriage return, vertical tab, form feed). -/

def pyIsSpace (c : Char) : Bool :=
  c == ' ' || c == '\t' || c == '\n' || c == '\r' || c == '\x0b' || c == '\x0c'

/-- Python `str.strip()` (both ends). -/
def pyStrip (s : String) : String :=
  ⟨((s.data.dropWhile pyIsSpace).reverse.dropWhile pyIsSpace).reverse⟩

/-- Python `str.rstrip()` (right end only). -/
def pyRstrip (s : String) : String :=
  ⟨(s.data.reverse.dropWhile pyIsSpace).reverse⟩

/-- Python `str.startswith` on one character prefix, as used by
`line.startswith("#")`. -/
def startsWithHash (s : String) : Bool :=
  match s.data with
  | [] => false
  | c :: _ => c == '#'

/-- Python `str.endswith("\n")`. -/
def endsWithNewline (s : String) : Bool :=
  match s.data.reverse with
  | [] => false
  | c :: _ => c == '\n'

/-! ## BatchQueue (`read_batch_links`, `mark_link_processed`)

A batch file is modelled as the list of lines `f.readlines()` would
return: each element carries its own line terminator, except possibly
the last one.  A file that does not exist is `none`. -/

/-- One line of `read_batch_links`'s loop: keep a line iff after
stripping it is non-empty and does not start with `#`. -/
def isActiveLine (s : String) : Bool :=
  s ≠ "" && !startsWithHash s

/-- Core of `read_batch_links` over the lines of an existing file. -/
def readLinks (lines : List String) : List String :=
  (lines.map pyStrip).filter isActiveLine

/-- Core of `mark_link_processed`'s rewrite of a single line:
`f.write(f"# {line}" if not line.endswith("\n") else f"# {line.rstrip()}\n")`
when `line.strip() == link`, else the line verbatim. -/
def markLine (link line : String) : String :=
  if pyStrip line = link then
    if endsWithNewline line then "# " ++ pyRstrip line ++ "\n"
    else "# " ++ line
  else line

/-- Core of `mark_link_processed` over the lines of an existing file. -/
def markLines (link : String) (lines : List String) : List String :=
  lines.map (markLine link)

/-- Embeds `read_batch_links(batch_file)`: `batch_file` is `none` for Python
`None`; `content` is `none` when `os.path.exists` is false, otherwise the
file's lines. -/
def read_batch_links (batch_file : Option String) (content : Option (List String)) :
    List String :=
  match batch_file with
  | none => []
  | some p =>
    if p = "" then []
    else
      match content with
      | none => []
      | some lines => readLinks lines

/-- Embeds `mark_link_processed(batch_file, link)`, returning the file content
after the call (unchanged when the guard returns early). -/
def mark_link_processed (batch_file : Option String) (content : Option (List String))
    (link : String) : Option (List String) :=
  match batch_file with
  | none => content
  | some p =>
    if p = "" then content
    else
      match content with
      | none => content
      | some lines => some (markLines link lines)

/-! ## SizePolicy (`get_piece_size`) -/

/-- Embeds `get_piece_size(total_size)`: RED piece-size buckets. -/
def get_piece_size (total_size : Nat) : Nat :=
  let MiB := 1024 * 1024
  let GiB := 1024 * MiB
  let KiB := 1024
  if total_size ≤ 50 * MiB then 32 * KiB
  else if total_size ≤ 150 * MiB then 64 * KiB
  else if total_size ≤ 350 * MiB then 128 * KiB
  else if total_size ≤ 512 * MiB then 256 * KiB
  else if total_size ≤ 1 * GiB then 512 * KiB
  else if total_size ≤ 2 * GiB then 1024 * KiB
  else 2048 * KiB

/-- The piece-size table as the spec words it (§4.3), for refinement. -/
def pieceSizeSpec (s : Nat) : Nat :=
  if s ≤ 50 * 1048576 then 32768
  else if s ≤ 150 * 1048576 then 65536
  else if s ≤ 350 * 1048576 then 131072
  else if s ≤ 512 * 1048576 then 262144
  else if s ≤ 1073741824 then 524288
  else if s ≤ 2147483648 then 1048576
  else 2097152

/-! ## Substring and lower-case helpers for the title heuristics -/

/-- Tests whether `needle` occurs at the head of `hay`. -/
def isPrefixChars : List Char → List Char → Bool
  | [], _ => true
  | _ :: _, [] => false
  | a :: as, b :: bs => a == b && isPrefixChars as bs

/-- Python `needle in hay` on character lists. -/
def containsChars (needle : List Char) : List Char → Bool
  | [] => isPrefixChars needle []
  | c :: rest => isPrefixChars needle (c :: rest) || containsChars needle rest

/-- Python `needle in hay` on strings. -/
def pyContains (hay needle : String) : Bool :=
  containsChars needle.data hay.data

/-- Python `str.lower()` (the titles at play are ASCII; `Char.toLower`
lowers exactly the ASCII uppercase letters). -/
def pyLower (s : String) : String :=
  ⟨s.data.map Char.toLower⟩

/-! ## ReleaseTypeCode (`RELEASE_TYPES`, `get_default_release_type`) -/

/-- The `RELEASE_TYPES` dictionary. -/
def RELEASE_TYPES : List (Nat × String) :=
  [(1, "Album"), (3, "Soundtrack"), (5, "EP"), (6, "Anthology"),
   (7, "Compilation"), (9, "Single"), (11, "Live album"), (13, "Remix"),
   (14, "Bootleg"), (15, "Interview"), (16, "Mixtape"), (17, "Demo"),
   (18, "Concert Recording"), (19, "DJ Mix"), (21, "Unknown")]

/-- Embeds `get_default_release_type(album_folder, album_name)`.  The folder
only matters through its FLAC listing, passed as `trackCount`
(`none` models the `os.listdir` call raising `OSError`). -/
def get_default_release_type (album_name : String) (trackCount : Option Nat) : Nat :=
  let albumLower := pyLower album_name
  if album_name ≠ "" && pyContains albumLower "remix" then 13
  else if album_name ≠ "" && pyContains albumLower "live" then 11
  else if album_name ≠ "" && (pyContains albumLower "soundtrack" || pyContains albumLower "ost") then 3
  else if album_name ≠ "" &&
      (pyContains albumLower "compilation" || pyContains albumLower "best of" ||
       pyContains albumLower "greatest hits") then 7
  else
    match trackCount with
    | none => 1
    | some n => if n ≤ 3 then 9 else if n ≤ 6 then 5 else 1

/-- The release-type heuristic as the spec words it (§4.6), without the
source's emptiness guard on the title, for refinement. -/
def releaseTypeSpec (title : String) (trackCount : Option Nat) : Nat :=
  let t := pyLower title
  if pyContains t "remix" then 13
  else if pyContains t "live" then 11
  else if pyContains t "soundtrack" || pyContains t "ost" then 3
  else if pyContains t "compilation" || pyContains t "best of" ||
      pyContains t "greatest hits" then 7
  else
    match trackCount with
    | none => 1
    | some n => if n ≤ 3 then 9 else if n ≤ 6 then 5 else 1

/-! ## Release description (`get_release_description`)

`sample_rate / 1000` is Python float division.  For every sample rate in
the representable range the float prints exactly the decimal expansion of
`r/1000` with trailing zeros dropped (shortest round-trip printing), and
it compares equal to `int(...)` exactly when `1000 ∣ r`; we embed that
decimal arithmetic exactly over `Nat`. -/

/-- The (at most three) fractional digits of `r/1000`, trailing zeros
dropped; argument is `r % 1000`, assumed nonzero by the caller. -/
def fracDigitsStr (f : Nat) : String :=
  let ds := [Char.ofNat (48 + f / 100), Char.ofNat (48 + f / 10 % 10),
             Char.ofNat (48 + f % 10)]
  ⟨(ds.reverse.dropWhile (· == '0')).reverse⟩

/-- Python `str(sample_rate / 1000)` / `str(int(sample_rate / 1000))` as
selected by `get_release_description`. -/
def sampleRateStr (r : Nat) : String :=
  if r % 1000 = 0 then toString (r / 1000)
  else toString (r / 1000) ++ "." ++ fracDigitsStr (r % 1000)

/-- Embeds `get_release_description(bits_per_sample, sample_rate, qobuz_url)`;
`qobuz_url = none` models Python `None`, and `some ""` is falsy too. -/
def get_release_description (bits_per_sample : Nat) (sample_rate : Nat)
    (qobuz_url : Option String) : String :=
  let desc := toString bits_per_sample ++ "/" ++ sampleRateStr sample_rate ++ " Qobuz Rip"
  match qobuz_url with
  | none => desc
  | some u => if u = "" then desc else desc ++ " [url]" ++ u ++ "[/url]"

/-! ## PublicationClient success checks

Two distinct checks appear in `main`:
* dry-run, line 1285: `if "success" not in status.lower()` over
  `status = dry_run_result.get("status", "")`;
* commit, lines 1135 and 1304: `if upload_result.get("status") == "success"`.
The `status` field of the parsed response is an `Option String`
(`none` when the key is absent). -/

/-- Dry-run success judgement (line 1283–1289). -/
def dry_run_success (status : Option String) : Bool :=
  pyContains (pyLower (status.getD "")) "success"

/-- Commit success judgement (lines 1135 and 1304). -/
def commit_success (status : Option String) : Bool :=
  status == some "success"

/-! ## AcquisitionDetector (`get_existing_folders`, `download_album`)

The directory listings are the observed state; the external
`qobuz-dl` call is recorded by whether it exited zero (`check=True`
raises `CalledProcessError` otherwise, which propagates before the second
listing is taken). -/

/-- Python `os.path.join(a, b)` for the plain relative names at play. -/
def pathJoin (a b : String) : String := a ++ "/" ++ b

/-- Embeds `get_existing_folders(directory)`: the subdirectory names of a
directory state, `none` when the directory does not exist.  `listing`
pairs each entry name with whether it is a directory. -/
def get_existing_folders (state : Option (List (String × Bool))) : List String :=
  match state with
  | none => []
  | some listing => (listing.filter (·.2)).map (·.1)

/-- Embeds `download_album(url, download_dir)`.  `before`/`after` are the
directory states at the two snapshots and `acquisitionOk` records the
external tool's exit; on a non-zero exit the exception propagates
(`Except.error`) without the second snapshot being consulted. -/
def download_album (download_dir : String)
    (before after : Option (List (String × Bool))) (acquisitionOk : Bool) :
    Except Unit (Option String) :=
  let folders_before := get_existing_folders before
  if !acquisitionOk then .error ()
  else
    let folders_after := get_existing_folders after
    let new_folders := folders_after.filter (fun n => !folders_before.contains n)
    match new_folders with
    | [] => .ok none
    | x :: _ => .ok (some (pathJoin download_dir x))

/-! ## PathNormalizer (`flatten_nested_album_folder`)

A directory entry is a file or a directory with children.  The album
folder sits inside a parent directory whose *other* entries are
`siblings` (their names are what `os.path.exists(new_path)` can hit; the
candidate name always differs from the album folder's own current name,
which is a strict prefix of it).  Only the album folder is ever renamed,
so `siblings` is constant across iterations. -/

inductive FsEntry where
  | file (name : String)
  | dir (name : String) (children : List FsEntry)

mutual

def entrySize : FsEntry → Nat
  | .file _ => 1
  | .dir _ cs => 1 + entriesSize cs

def entriesSize : List FsEntry → Nat
  | [] => 0
  | e :: es => entrySize e + entriesSize es

end

def FsEntry.name : FsEntry → String
  | .file n => n
  | .dir n _ => n

/-- Decimal rendering of the collision counter (Python's `f"…_{counter}"`
interpolation); fuel-structured so it evaluates in the kernel, with
`natReprAux_eq_digits` relating it to `Nat.digits`. -/
def natReprAux : Nat → Nat → List Char
  | 0, _ => []
  | fuel + 1, n =>
    if n = 0 then []
    else natReprAux fuel (n / 10) ++ [Nat.digitChar (n % 10)]

/-- Decimal rendering of a natural number. -/
def natRepr (n : Nat) : String :=
  if n = 0 then "0" else ⟨natReprAux n n⟩

/-- The collision loop `while os.path.exists(f"{new_path}_{counter}")`:
try `base_counter`, `base_(counter+1)`, … within `fuel` steps.  The fuel
is always chosen as `used.length + 1`, which suffices (see
`suffixSearch_not_mem`). -/
def suffixSearch (used : List String) (base : String) : Nat → Nat → String
  | counter, 0 => base ++ "_" ++ natRepr counter
  | counter, fuel + 1 =>
    let cand := base ++ "_" ++ natRepr counter
    if used.contains cand then suffixSearch used base (counter + 1) fuel
    else cand

/-- The collision-avoiding rename target of the safety check at lines
155–162: `new_name` itself when free, else the first free `new_name_k`,
`k ≥ 1`. -/
def freshName (used : List String) (base : String) : String :=
  if used.contains base then suffixSearch used base 1 (used.length + 1)
  else base

/-- The `while True` loop of `flatten_nested_album_folder`, carried out
on the album folder's name and children.  Each collapse strictly
shrinks `entriesSize`, so the loop is run with fuel
`entriesSize children + 1`, which `flattenLoop_fuel_irrelevant` below
shows is never exhausted. -/
def flattenLoop (siblings : List String) : Nat → String → List FsEntry → FsEntry
  | 0, name, cs => .dir name cs
  | fuel + 1, name, children =>
    match children with
    | [FsEntry.dir cname cchildren] =>
      flattenLoop siblings fuel (freshName siblings (name ++ "-" ++ cname)) cchildren
    | cs => .dir name cs

/-- Embeds `flatten_nested_album_folder(album_folder)`: repeatedly collapse a
single-directory-child album folder into its parent level, combining the
names with `-` and avoiding collisions with `siblings` (the names of the
other entries of the parent directory).  Each collapse moves the child
to the fresh name and removes the now-empty parent (`os.rmdir`), so the
parent level ends up holding exactly the returned entry in place of the
original album folder. -/
def flatten_nested_album_folder (siblings : List String) : FsEntry → FsEntry
  | .file n => .file n
  | .dir name children => flattenLoop siblings (entriesSize children + 1) name children

/-! ## PipelineOrchestrator batch loop (`main`, lines 1040–1163)

The body of `for idx, batch_url in enumerate(batch_links, 1)` sits in a
`try`/`except Exception` block.  Each effectful call is recorded in a
`BatchEnv`: `Except String α` is an exception (`error`) or a returned
value (`ok`).  The outcome of one entry is whether the queue line was
marked, and which of `successful`/`failed` was incremented. -/

/-- The parsed JSON of `upload_torrent`'s response, as far as the batch
loop inspects it: its `status` field (`none` when absent). -/
structure UploadResult where
  status : Option String

/-- Recorded outcomes of the effectful calls one batch entry makes, in
program order. -/
structure BatchEnv where
  /-- Outcome of `download_album`: exception, or its return value (`None` = no new folder). -/
  download : Except String (Option String)
  /-- Outcome of `flatten_nested_album_folder`: exception, or the flattened path. -/
  flatten : Except String String
  /-- Outcome of `recompress_flac_files`. -/
  recompress : Except String Unit
  /-- Outcome of `move_album`: exception, or the final path. -/
  move : Except String String
  /-- Result of `os.path.exists(expected_torrent)`. -/
  torrentExists : Bool
  /-- Outcome of `create_torrent` (consulted only when no torrent exists yet). -/
  createTorrent : Except String String
  /-- Outcome of `read_flac_metadata` (a `None` result only downgrades to defaults). -/
  readMetadata : Except String Unit
  /-- Outcome of `get_default_upload_fields` / `prompt_upload_fields`. -/
  deriveFields : Except String Unit
  /-- The `Proceed with upload?` confirmation (manual mode only). -/
  userConfirms : Bool
  /-- Outcome of `upload_torrent`. -/
  upload : Except String UploadResult
  /-- Outcome of the `shutil.move` of the torrent into the watch folder. -/
  watchMove : Except String Unit

/-- Outcome of one batch entry: was `mark_link_processed` reached, and
the increments to the running `successful`/`failed` counters. -/
structure EntryOutcome where
  marked : Bool
  successInc : Nat
  failInc : Nat

/-- One iteration of the batch loop (lines 1047–1163): any exception is
caught by `except Exception` (line 1160) which counts the entry failed
and continues; `mark_link_processed` runs only after an upload whose
`status == "success"`, and after the watch-folder move when one is
configured. -/
def processBatchEntry (autoMode watchConfigured : Bool) (env : BatchEnv) : EntryOutcome :=
  match env.download with
  | .error _ => ⟨false, 0, 1⟩
  | .ok none => ⟨false, 0, 1⟩
  | .ok (some _) =>
    match env.flatten with
    | .error _ => ⟨false, 0, 1⟩
    | .ok _ =>
      match env.recompress with
      | .error _ => ⟨false, 0, 1⟩
      | .ok _ =>
        match env.move with
        | .error _ => ⟨false, 0, 1⟩
        | .ok _ =>
          match (if env.torrentExists then .ok "existing" else env.createTorrent : Except String String) with
          | .error _ => ⟨false, 0, 1⟩
          | .ok _ =>
            match env.readMetadata with
            | .error _ => ⟨false, 0, 1⟩
            | .ok _ =>
              match env.deriveFields with
              | .error _ => ⟨false, 0, 1⟩
              | .ok _ =>
                if !autoMode && !env.userConfirms then ⟨false, 0, 1⟩
                else
                  match env.upload with
                  | .error _ => ⟨false, 0, 1⟩
                  | .ok r =>
                    if commit_success r.status then
                      if watchConfigured then
                        match env.watchMove with
                        | .error _ => ⟨false, 0, 1⟩
                        | .ok _ => ⟨true, 1, 0⟩
                      else ⟨true, 1, 0⟩
                    else ⟨false, 0, 1⟩

/-- The whole batch loop: every entry is processed (failures `continue`
to the next entry), counters accumulate, and the per-entry mark flags
are collected in order. -/
def runBatch (autoMode watchConfigured : Bool) (envs : List BatchEnv) :
    Nat × Nat × List Bool :=
  match envs with
  | [] => (0, 0, [])
  | env :: rest =>
    let o := processBatchEntry autoMode watchConfigured env
    let r := runBatch autoMode watchConfigured rest
    (o.successInc + r.1, o.failInc + r.2.1, o.marked :: r.2.2)

/-! ## C3: SizePolicy -/

/-- C3: `get_piece_size` is a pure total function on byte sizes that
realises exactly the spec's inclusive upper-bound bucket table, is
monotone, and maps 0 ↦ 32 KiB, 50 MiB ↦ 32 KiB, 50 MiB + 1 ↦ 64 KiB and
3 GiB ↦ 2048 KiB. -/
theorem get_piece_size_correct :
    (∀ s, get_piece_size s = pieceSizeSpec s) ∧
    (∀ s1 s2, s1 < s2 → get_piece_size s1 ≤ get_piece_size s2) ∧
    get_piece_size 0 = 32768 ∧
    get_piece_size 52428800 = 32768 ∧
    get_piece_size 52428801 = 65536 ∧
    get_piece_size 3221225472 = 2097152 := by
  refine ⟨fun s => ?_, fun s1 s2 h => ?_, ?_, ?_, ?_, ?_⟩
  · simp only [get_piece_size, pieceSizeSpec]
  · simp only [get_piece_size]
    split_ifs <;> omega
  · rfl
  · norm_num [get_piece_size]
  · norm_num [get_piece_size]
  · norm_num [get_piece_size]

/-- Witness for C3's monotonicity hypothesis at concrete sizes. -/
theorem get_piece_size_correct_witness :
    52428800 < 52428801 ∧ get_piece_size 52428800 ≤ get_piece_size 52428801 :=
  ⟨by norm_num, get_piece_size_correct.2.1 52428800 52428801 (by norm_num)⟩

/-! ## C5: release description -/

/-- C5: the release description is
`"{bits}/{kHz} Qobuz Rip"` with the kHz figure dropping a trailing `.0`,
a supplied non-empty source URL is appended as a bracketed `[url]…[/url]`
reference, and concretely `(24, 96000, –) ↦ "24/96 Qobuz Rip"` and
`(16, 44100, "X") ↦ "16/44.1 Qobuz Rip [url]X[/url]"`. -/
theorem get_release_description_correct :
    (∀ b r, get_release_description b r none =
      toString b ++ "/" ++ sampleRateStr r ++ " Qobuz Rip") ∧
    (∀ b r u, u ≠ "" → get_release_description b r (some u) =
      get_release_description b r none ++ " [url]" ++ u ++ "[/url]") ∧
    sampleRateStr 96000 = "96" ∧
    sampleRateStr 44100 = "44.1" ∧
    get_release_description 24 96000 none = "24/96 Qobuz Rip" ∧
    get_release_description 16 44100 (some "X") = "16/44.1 Qobuz Rip [url]X[/url]" := by
  refine ⟨fun b r => rfl, fun b r u hu => ?_, rfl, rfl, rfl, rfl⟩
  simp only [get_release_description, if_neg hu]

/-- Witness for C5's non-empty-URL hypothesis at a concrete input. -/
theorem get_release_description_correct_witness :
    ("X" : String) ≠ "" ∧
    get_release_description 16 44100 (some "X") =
      get_release_description 16 44100 none ++ " [url]" ++ "X" ++ "[/url]" :=
  ⟨by decide, get_release_description_correct.2.1 16 44100 "X" (by decide)⟩

/-! ## C4: release-type heuristic -/

/-- C4: the release-type heuristic follows the spec's priority order
(remix, live, soundtrack/ost, compilation keywords, then track count
with Album as the indeterminate default) and always yields a code of the
fixed `RELEASE_TYPES` table. -/
theorem get_default_release_type_correct :
    (∀ name tc, get_default_release_type name tc = releaseTypeSpec name tc) ∧
    (∀ name tc, get_default_release_type name tc ∈ RELEASE_TYPES.map Prod.fst) ∧
    (∀ tc, get_default_release_type "Live at Wembley" tc = 11) ∧
    get_default_release_type "Greatest Hits" (some 12) = 7 ∧
    get_default_release_type "Some Album" (some 2) = 9 ∧
    get_default_release_type "Some Album" (some 10) = 1 ∧
    get_default_release_type "Some Album" none = 1 := by
  refine ⟨fun name tc => ?_, fun name tc => ?_, fun tc => ?_, rfl, rfl, rfl, rfl⟩
  · by_cases hn : name = ""
    · subst hn
      cases tc <;> rfl
    · simp [get_default_release_type, releaseTypeSpec, hn]
  · rcases tc with _ | n <;>
      · simp only [get_default_release_type, RELEASE_TYPES]
        split_ifs <;> simp
  · cases tc <;> rfl

/-! ## C6: API success judgement -/

/-- C6 counterexample: the status `"dry run success"` contains the token
`"success"` case-insensitively, yet the commit-path judgement (lines
1135 / 1304, `upload_result.get("status") == "success"`) rejects it, so
the two submission paths are not judged alike by a contains-check. -/
theorem success_check_counterexample :
    pyContains (pyLower "dry run success") "success" = true ∧
    dry_run_success (some "dry run success") = true ∧
    commit_success (some "dry run success") = false := by
  decide

/-- C6 amended: only the dry-run judgement is the case-insensitive
contains-check; the commit judgement accepts exactly the status
`"success"`, every commit-accepted status also passing the
contains-check. -/
theorem success_checks_correct :
    (∀ st : Option String,
      dry_run_success st = pyContains (pyLower (st.getD "")) "success") ∧
    (∀ st : Option String, commit_success st = true ↔ st = some "success") ∧
    (∀ s : String, commit_success (some s) = true → dry_run_success (some s) = true) := by
  refine ⟨fun st => rfl, fun st => ?_, fun s h => ?_⟩
  · simp [commit_success]
  · have hs : s = "success" := by simpa [commit_success] using h
    subst hs
    decide

/-- Witness for C6's amended theorem at the exact status `"success"`. -/
theorem success_checks_correct_witness :
    commit_success (some "success") = true ∧ dry_run_success (some "success") = true :=
  ⟨by decide, success_checks_correct.2.2 "success" (by decide)⟩

/-! ## C9: absent batch queue -/

/-- C9: with a `None`/empty batch-file path or a nonexistent file,
`read_batch_links` returns the empty list and `mark_link_processed`
leaves the file state untouched (both return through the guard instead
of raising). -/
theorem absent_batch_file_safe (bf : Option String) (content : Option (List String))
    (link : String) (h : bf = none ∨ bf = some "" ∨ content = none) :
    read_batch_links bf content = [] ∧ mark_link_processed bf content link = content := by
  rcases h with h | h | h
  · subst h
    exact ⟨rfl, rfl⟩
  · subst h
    exact ⟨rfl, rfl⟩
  · subst h
    rcases bf with _ | p
    · exact ⟨rfl, rfl⟩
    · constructor <;> simp [read_batch_links, mark_link_processed]

/-- Witness for C9 at a nonexistent file with a real path. -/
theorem absent_batch_file_safe_witness :
    ((some "links.txt" : Option String) = none ∨ (some "links.txt" : Option String) = some "" ∨
      (none : Option (List String)) = none) ∧
    read_batch_links (some "links.txt") none = [] ∧
    mark_link_processed (some "links.txt") none "u" = none :=
  ⟨Or.inr (Or.inr rfl),
    absent_batch_file_safe (some "links.txt") none "u" (Or.inr (Or.inr rfl))⟩

/-! ## Shared lemmas on stripping and marked lines -/

theorem dropWhile_append_last (p : Char → Bool) (xs : List Char) (a : Char)
    (ha : p a = false) : (xs ++ [a]).dropWhile p = xs.dropWhile p ++ [a] := by
  induction xs with
  | nil => simp [List.dropWhile, ha]
  | cons x xs ih =>
    by_cases hx : p x = true
    · simp [List.dropWhile_cons, hx, ih]
    · simp [List.dropWhile_cons, hx]

/-- Stripping preserves a leading non-whitespace character. -/
theorem pyStrip_cons (c : Char) (hc : pyIsSpace c = false) (rest : List Char) :
    pyStrip ⟨c :: rest⟩ = ⟨c :: (rest.reverse.dropWhile pyIsSpace).reverse⟩ := by
  simp only [pyStrip, List.dropWhile_cons, hc, Bool.false_eq_true, if_false,
    List.reverse_cons]
  rw [dropWhile_append_last pyIsSpace _ c hc]
  simp

/-- A marked line `"# " ++ t` strips to a string that still starts with `#`. -/
theorem startsWithHash_pyStrip_marked (t : String) :
    startsWithHash (pyStrip ("# " ++ t)) = true := by
  have hdata : ("# " ++ t).data = '#' :: (' ' :: t.data) := rfl
  have hc : pyIsSpace '#' = false := rfl
  have : pyStrip ("# " ++ t) =
      ⟨'#' :: ((' ' :: t.data).reverse.dropWhile pyIsSpace).reverse⟩ := by
    rw [show ("# " ++ t) = String.mk ('#' :: (' ' :: t.data)) from rfl]
    exact pyStrip_cons '#' hc (' ' :: t.data)
  rw [this]
  rfl

/-- An active entry (non-empty, not `#`-prefixed) never equals the strip
of a marked line. -/
theorem pyStrip_marked_ne_active (e t : String) (he : isActiveLine e = true) :
    pyStrip ("# " ++ t) ≠ e := by
  intro h
  have hhash := startsWithHash_pyStrip_marked t
  rw [h] at hhash
  have h2 : (!startsWithHash e) = true := by
    have := he
    simp only [isActiveLine, Bool.and_eq_true] at this
    exact this.2
  rw [hhash] at h2
  simp at h2

/-- A matched line is rewritten to `"# " ++ something`. -/
theorem markLine_matched (link line : String) (h : pyStrip line = link) :
    markLine link line =
      (if endsWithNewline line then "# " ++ (pyRstrip line ++ "\n") else "# " ++ line) := by
  simp only [markLine, if_pos h]
  split_ifs <;> simp [String.append_assoc]

/-! ## C2: BatchQueue idempotence -/

theorem readLinks_cons (l : String) (ls : List String) :
    readLinks (l :: ls) =
      (if isActiveLine (pyStrip l) = true then pyStrip l :: readLinks ls
       else readLinks ls) := by
  simp [readLinks, List.filter_cons]

/-- A matched line's rewrite is no longer an active match for the entry. -/
theorem markLine_matched_inactive (e l : String)
    (h : pyStrip l = e) : isActiveLine (pyStrip (markLine e l)) = false := by
  rw [markLine_matched e l h]
  have h1 := startsWithHash_pyStrip_marked (pyRstrip l ++ "\n")
  have h2 := startsWithHash_pyStrip_marked l
  split_ifs <;> simp [isActiveLine, h1, h2]

/-- C2: marking an active entry twice leaves the file (its line list,
hence its bytes) identical to the state after the first marking, and
reading after marking yields exactly the other active entries in their
original order. -/
theorem batch_mark_idempotent (lines : List String) (e : String)
    (he : isActiveLine e = true) :
    markLines e (markLines e lines) = markLines e lines ∧
    String.join (markLines e (markLines e lines)) = String.join (markLines e lines) ∧
    readLinks (markLines e lines) = (readLinks lines).filter (fun l => l ≠ e) := by
  have hline : ∀ line, markLine e (markLine e line) = markLine e line := by
    intro line
    by_cases h : pyStrip line = e
    · rw [markLine_matched e line h]
      split_ifs with hnl
      · exact if_neg (pyStrip_marked_ne_active e _ he)
      · exact if_neg (pyStrip_marked_ne_active e _ he)
    · have hl : markLine e line = line := by simp [markLine, h]
      rw [hl, hl]
  have hmark : markLines e (markLines e lines) = markLines e lines := by
    simp only [markLines, List.map_map]
    exact List.map_congr_left (fun line _ => hline line)
  have hread : ∀ ls : List String,
      readLinks (markLines e ls) = (readLinks ls).filter (fun l => l ≠ e) := by
    intro ls
    induction ls with
    | nil => rfl
    | cons l ls ih =>
      have hcons : markLines e (l :: ls) = markLine e l :: markLines e ls := rfl
      rw [hcons, readLinks_cons, readLinks_cons]
      by_cases h : pyStrip l = e
      · rw [if_neg (by simp [markLine_matched_inactive e l h]),
          if_pos (by rw [h]; exact he), List.filter_cons]
        simp only [h, ne_eq, not_true_eq_false, decide_False, Bool.false_eq_true, if_false]
        exact ih
      · have hmk : markLine e l = l := by simp [markLine, h]
        rw [hmk]
        by_cases ha : isActiveLine (pyStrip l) = true
        · rw [if_pos ha, if_pos ha, List.filter_cons]
          simp only [ne_eq, h, not_false_eq_true, decide_True, if_true]
          rw [ih]
        · rw [if_neg ha, if_neg ha]
          exact ih
  exact ⟨hmark, by rw [hmark], hread lines⟩

/-- Witness for C2 on a concrete three-line queue. -/
theorem batch_mark_idempotent_witness :
    isActiveLine "a" = true ∧
    (markLines "a" (markLines "a" ["a\n", "b\n", "# c\n"]) =
        markLines "a" ["a\n", "b\n", "# c\n"] ∧
      String.join (markLines "a" (markLines "a" ["a\n", "b\n", "# c\n"])) =
        String.join (markLines "a" ["a\n", "b\n", "# c\n"]) ∧
      readLinks (markLines "a" ["a\n", "b\n", "# c\n"]) =
        (readLinks ["a\n", "b\n", "# c\n"]).filter (fun l => l ≠ "a")) :=
  ⟨by decide, batch_mark_idempotent ["a\n", "b\n", "# c\n"] "a" (by decide)⟩

/-! ## C10: which lines are rewritten, and to what -/

/-- C10 counterexample: a matched line with leading whitespace is *not*
normalised to `"# <stripped link>\n"`; the leading whitespace survives
(`"  url\n"` becomes `"#   url\n"`, not `"# url\n"`). -/
theorem mark_normalisation_counterexample :
    markLines "url" ["  url\n"] = ["#   url\n"] ∧
    markLines "url" ["  url\n"] ≠ ["# url\n"] := by
  decide

/-- C10 amended: `mark_link_processed` matches lines by
whitespace-stripped equality and rewrites every matching line (any
index, not only the first); a matched line ending in a newline becomes
`"# "` + the line with only its trailing whitespace stripped + `"\n"`
(leading whitespace preserved), a matched final line without newline
becomes `"# "` + the line verbatim, and unmatched lines are untouched. -/
theorem markLines_rewrites_every_match (lines : List String) (link : String) :
    (markLines link lines).length = lines.length ∧
    (∀ i, i < lines.length → pyStrip (lines.getD i "") = link →
      (markLines link lines).getD i "" =
        (if endsWithNewline (lines.getD i "") then "# " ++ (pyRstrip (lines.getD i "") ++ "\n")
         else "# " ++ lines.getD i "")) ∧
    (∀ i, i < lines.length → pyStrip (lines.getD i "") ≠ link →
      (markLines link lines).getD i "" = lines.getD i "") := by
  have hget : ∀ i, i < lines.length →
      (markLines link lines).getD i "" = markLine link (lines.getD i "") := by
    intro i hi
    simp only [markLines, List.getD_eq_getElem?_getD, List.getElem?_map]
    rw [List.getElem?_eq_getElem hi]
    simp
  refine ⟨by simp [markLines], fun i hi h => ?_, fun i hi h => ?_⟩
  · rw [hget i hi, markLine_matched link _ h]
  · rw [hget i hi, markLine, if_neg h]

/-- Witness for C10's amended theorem: in a queue holding the same link
twice, the *second* occurrence is also rewritten. -/
theorem markLines_rewrites_every_match_witness :
    1 < ([" x\n", " x\n"] : List String).length ∧
    pyStrip ([" x\n", " x\n"].getD 1 "") = "x" ∧
    (markLines "x" [" x\n", " x\n"]).getD 1 "" =
      (if endsWithNewline ([" x\n", " x\n"].getD 1 "")
       then "# " ++ (pyRstrip ([" x\n", " x\n"].getD 1 "") ++ "\n")
       else "# " ++ [" x\n", " x\n"].getD 1 "") :=
  ⟨by decide, by decide,
    (markLines_rewrites_every_match [" x\n", " x\n"] "x").2.1 1 (by decide) (by decide)⟩

/-! ## C1: decimal counter rendering is injective -/

/-- Left inverse of `Nat.digitChar` on decimal digits. -/
def charDigit (c : Char) : Nat := c.toNat - 48

theorem charDigit_digitChar (d : Nat) (hd : d < 10) :
    charDigit (Nat.digitChar d) = d := by
  interval_cases d <;> rfl

theorem natReprAux_eq_digits (fuel : Nat) :
    ∀ n : Nat, n ≤ fuel →
      natReprAux fuel n = ((Nat.digits 10 n).map Nat.digitChar).reverse := by
  induction fuel with
  | zero =>
    intro n hn
    interval_cases n
    simp [natReprAux]
  | succ fuel ih =>
    intro n hn
    by_cases h0 : n = 0
    · subst h0
      simp [natReprAux]
    · have hdiv : n / 10 ≤ fuel := by
        have : n / 10 < n := Nat.div_lt_self (Nat.pos_of_ne_zero h0) (by norm_num)
        omega
      rw [show natReprAux (fuel + 1) n =
          natReprAux fuel (n / 10) ++ [Nat.digitChar (n % 10)] by
            simp [natReprAux, h0]]
      rw [ih (n / 10) hdiv, Nat.digits_def' (by norm_num : (1:Nat) < 10)
        (Nat.pos_of_ne_zero h0)]
      simp

theorem map_digitChar_cancel (l : List Nat) (hl : ∀ d ∈ l, d < 10) :
    (l.map Nat.digitChar).map charDigit = l := by
  induction l with
  | nil => rfl
  | cons d l ih =>
    simp only [List.map_cons, List.cons.injEq]
    exact ⟨charDigit_digitChar d (hl d (by simp)),
      ih (fun x hx => hl x (by simp [hx]))⟩

theorem natRepr_injective (m n : Nat) (h : natRepr m = natRepr n) : m = n := by
  have key : ∀ a : Nat, a ≠ 0 →
      (natRepr a).data = ((Nat.digits 10 a).map Nat.digitChar).reverse := by
    intro a ha
    simp only [natRepr, if_neg ha]
    rw [natReprAux_eq_digits a a (le_refl a)]
  by_cases hm : m = 0 <;> by_cases hn : n = 0
  · omega
  · exfalso
    subst hm
    have hd := congrArg String.data h
    rw [key n hn] at hd
    have h0 : (natRepr 0).data = ['0'] := rfl
    rw [h0] at hd
    have : (Nat.digits 10 n).map Nat.digitChar = ['0'] := by
      have := congrArg List.reverse hd
      simpa using this.symm
    have hdig : Nat.digits 10 n = [0] := by
      have hc := congrArg (List.map charDigit) this
      rw [map_digitChar_cancel _ (fun d hd' => Nat.digits_lt_base (by norm_num) hd')] at hc
      simpa [charDigit] using hc
    have := Nat.ofDigits_digits 10 n
    rw [hdig] at this
    simp [Nat.ofDigits] at this
    exact hn this.symm
  · exfalso
    subst hn
    have hd := congrArg String.data h
    rw [key m hm] at hd
    have h0 : (natRepr 0).data = ['0'] := rfl
    rw [h0] at hd
    have : (Nat.digits 10 m).map Nat.digitChar = ['0'] := by
      have := congrArg List.reverse hd
      simpa using this
    have hdig : Nat.digits 10 m = [0] := by
      have hc := congrArg (List.map charDigit) this
      rw [map_digitChar_cancel _ (fun d hd' => Nat.digits_lt_base (by norm_num) hd')] at hc
      simpa [charDigit] using hc
    have := Nat.ofDigits_digits 10 m
    rw [hdig] at this
    simp [Nat.ofDigits] at this
    exact hm this.symm
  · have hd := congrArg String.data h
    rw [key m hm, key n hn] at hd
    have hmaps : (Nat.digits 10 m).map Nat.digitChar = (Nat.digits 10 n).map Nat.digitChar := by
      have := congrArg List.reverse hd
      simpa using this
    have hdig : Nat.digits 10 m = Nat.digits 10 n := by
      have hc := congrArg (List.map charDigit) hmaps
      rw [map_digitChar_cancel _ (fun d hd' => Nat.digits_lt_base (by norm_num) hd'),
        map_digitChar_cancel _ (fun d hd' => Nat.digits_lt_base (by norm_num) hd')] at hc
      exact hc
    have h1 := Nat.ofDigits_digits 10 m
    have h2 := Nat.ofDigits_digits 10 n
    rw [hdig] at h1
    omega

/-! ## C1: the collision-avoiding rename -/

/-- The candidate names `base_j` are pairwise distinct. -/
theorem candidate_injective (base : String) (a b : Nat)
    (h : base ++ "_" ++ natRepr a = base ++ "_" ++ natRepr b) : a = b := by
  apply natRepr_injective
  have hd := congrArg String.data h
  simp only [String.data_append] at hd
  rw [List.append_assoc, List.append_assoc] at hd
  have h3 := List.append_cancel_left (List.append_cancel_left hd)
  calc natRepr a = ⟨(natRepr a).data⟩ := rfl
    _ = ⟨(natRepr b).data⟩ := by rw [h3]
    _ = natRepr b := rfl

/-- Some candidate within `used.length + 1` consecutive suffixes is free. -/
theorem exists_free_suffix (used : List String) (base : String) :
    ∃ j, 1 ≤ j ∧ j < 1 + (used.length + 1) ∧
      used.contains (base ++ "_" ++ natRepr j) = false := by
  by_contra hall
  push_neg at hall
  have hsub : ((List.range (used.length + 1)).map
      (fun i => base ++ "_" ++ natRepr (i + 1))) ⊆ used := by
    intro x hx
    simp only [List.mem_map, List.mem_range] at hx
    obtain ⟨i, hi, rfl⟩ := hx
    have hme := hall (i + 1) (by omega) (by omega)
    simpa using hme
  have hnodup : ((List.range (used.length + 1)).map
      (fun i => base ++ "_" ++ natRepr (i + 1))).Nodup := by
    refine List.Nodup.map ?_ (List.nodup_range _)
    intro a b hab
    have := candidate_injective base (a + 1) (b + 1) hab
    omega
  have hle := (hnodup.subperm hsub).length_le
  simp at hle

/-- `suffixSearch` always yields a suffixed candidate `base_k`, `k ≥ counter`. -/
theorem suffixSearch_form (used : List String) (base : String) :
    ∀ fuel counter, ∃ k, counter ≤ k ∧
      suffixSearch used base counter fuel = base ++ "_" ++ natRepr k := by
  intro fuel
  induction fuel with
  | zero => exact fun counter => ⟨counter, le_refl _, rfl⟩
  | succ fuel ih =>
    intro counter
    by_cases h : used.contains (base ++ "_" ++ natRepr counter) = true
    · obtain ⟨k, hk, heq⟩ := ih (counter + 1)
      refine ⟨k, by omega, ?_⟩
      rw [show suffixSearch used base counter (fuel + 1) =
          suffixSearch used base (counter + 1) fuel by
            simp only [suffixSearch]
            rw [if_pos h]]
      exact heq
    · refine ⟨counter, le_refl _, ?_⟩
      simp only [suffixSearch]
      rw [if_neg h]

/-- With a free candidate within the fuel window, `suffixSearch` returns
a name not present in `used`. -/
theorem suffixSearch_not_mem (used : List String) (base : String) :
    ∀ fuel counter,
      (∃ j, counter ≤ j ∧ j < counter + fuel ∧
        used.contains (base ++ "_" ++ natRepr j) = false) →
      used.contains (suffixSearch used base counter fuel) = false := by
  intro fuel
  induction fuel with
  | zero =>
    rintro counter ⟨j, h1, h2, _⟩
    omega
  | succ fuel ih =>
    rintro counter ⟨j, hj1, hj2, hjfree⟩
    by_cases h : used.contains (base ++ "_" ++ natRepr counter) = true
    · have hne : j ≠ counter := by
        rintro rfl
        rw [hjfree] at h
        exact Bool.false_ne_true h
      rw [show suffixSearch used base counter (fuel + 1) =
          suffixSearch used base (counter + 1) fuel by
            simp only [suffixSearch]
            rw [if_pos h]]
      exact ih (counter + 1) ⟨j, by omega, by omega, hjfree⟩
    · rw [show suffixSearch used base counter (fuel + 1) =
          base ++ "_" ++ natRepr counter by
            simp only [suffixSearch]
            rw [if_neg h]]
      simpa using h

/-- The fresh name equals the base when the base is free, otherwise it is
a suffixed `base_k` with `k ≥ 1`; in both cases it collides with nothing
in `used`. -/
theorem freshName_spec (used : List String) (base : String) :
    used.contains (freshName used base) = false ∧
    (used.contains base = false → freshName used base = base) ∧
    (used.contains base = true →
      ∃ k, 1 ≤ k ∧ freshName used base = base ++ "_" ++ natRepr k) := by
  refine ⟨?_, fun h => by simp only [freshName]; rw [if_neg (by simpa using h)], fun h => ?_⟩
  · by_cases h : used.contains base = true
    · simp only [freshName]
      rw [if_pos h]
      obtain ⟨j, hj1, hj2, hjfree⟩ := exists_free_suffix used base
      exact suffixSearch_not_mem used base (used.length + 1) 1 ⟨j, hj1, hj2, hjfree⟩
    · simp only [freshName]
      rw [if_neg h]
      simpa using h
  · simp only [freshName]
    rw [if_pos h]
    obtain ⟨k, hk, heq⟩ := suffixSearch_form used base (used.length + 1) 1
    exact ⟨k, hk, heq⟩

/-! ## C1: flattening nested album folders -/

/-- C1 counterexample: with a sibling `A-B` already present at the
parent level, the chain `A/B/C/f.flac` flattens to a folder named
`A-B_1-C` — the suffix is inserted at the *intermediate* stage — which
is neither `A-B-C` nor `A-B-C` with a numeric suffix (it does not even
have `A-B-C` as a prefix). -/
theorem flatten_counterexample :
    flatten_nested_album_folder ["A-B"] (.dir "A" [.dir "B" [.dir "C" [.file "f.flac"]]]) =
      .dir "A-B_1-C" [.file "f.flac"] ∧
    isPrefixChars ("A-B-C").data ("A-B_1-C").data = false ∧
    (∀ k : Nat, "A-B-C" ++ "_" ++ natRepr k ≠ "A-B_1-C") := by
  refine ⟨rfl, by decide, fun k h => ?_⟩
  have hd := congrArg String.data h
  simp only [String.data_append] at hd
  simp at hd

/-- C1 amended: when the intermediate combined name `A-B` is free at the
parent level, the chain `A/B/C/f` collapses to a single folder holding
`f`, named by the collision-avoiding rename of `A-B-C`: `A-B-C` itself
when free, else `A-B-C_k` (`k ≥ 1`), and in either case a name free of
collisions; a folder with two or more direct entries, or a single direct
file, is returned unchanged. -/
theorem flatten_nested_correct (siblings : List String) (A B C f : String)
    (hAB : siblings.contains (A ++ "-" ++ B) = false) :
    (flatten_nested_album_folder siblings (.dir A [.dir B [.dir C [.file f]]]) =
       .dir (freshName siblings (A ++ "-" ++ B ++ "-" ++ C)) [.file f]) ∧
    siblings.contains (freshName siblings (A ++ "-" ++ B ++ "-" ++ C)) = false ∧
    (siblings.contains (A ++ "-" ++ B ++ "-" ++ C) = false →
       freshName siblings (A ++ "-" ++ B ++ "-" ++ C) = A ++ "-" ++ B ++ "-" ++ C) ∧
    (siblings.contains (A ++ "-" ++ B ++ "-" ++ C) = true →
       ∃ k, 1 ≤ k ∧ freshName siblings (A ++ "-" ++ B ++ "-" ++ C) =
         A ++ "-" ++ B ++ "-" ++ C ++ "_" ++ natRepr k) ∧
    (∀ name cs, 2 ≤ cs.length →
       flatten_nested_album_folder siblings (.dir name cs) = .dir name cs) ∧
    (∀ name fn, flatten_nested_album_folder siblings (.dir name [.file fn]) =
       .dir name [.file fn]) := by
  have h1 : freshName siblings (A ++ "-" ++ B) = A ++ "-" ++ B :=
    (freshName_spec siblings (A ++ "-" ++ B)).2.1 hAB
  refine ⟨?_, (freshName_spec siblings _).1, (freshName_spec siblings _).2.1,
    (freshName_spec siblings _).2.2, fun name cs hcs => ?_, fun name fn => rfl⟩
  · calc
      flatten_nested_album_folder siblings (.dir A [.dir B [.dir C [.file f]]]) =
          flattenLoop siblings 2
            (freshName siblings (freshName siblings (A ++ "-" ++ B) ++ "-" ++ C))
            [.file f] := rfl
      _ = .dir (freshName siblings (freshName siblings (A ++ "-" ++ B) ++ "-" ++ C))
            [.file f] := rfl
      _ = .dir (freshName siblings (A ++ "-" ++ B ++ "-" ++ C)) [.file f] := by rw [h1]
  · match cs, hcs with
    | a :: b :: rest, _ =>
      show flattenLoop siblings (entriesSize (a :: b :: rest) + 1) name (a :: b :: rest) =
        .dir name (a :: b :: rest)
      cases a <;> rfl

/-- Witness for C1's amended theorem, exercising the collision-suffix
branch at the final name. -/
theorem flatten_nested_correct_witness :
    (["A-B-C"] : List String).contains ("A" ++ "-" ++ "B") = false ∧
    flatten_nested_album_folder ["A-B-C"] (.dir "A" [.dir "B" [.dir "C" [.file "f.flac"]]]) =
      .dir (freshName ["A-B-C"] ("A" ++ "-" ++ "B" ++ "-" ++ "C")) [.file "f.flac"] :=
  ⟨by decide, (flatten_nested_correct ["A-B-C"] "A" "B" "C" "f.flac" (by decide)).1⟩

/-! ## C7: batch mode marks only after success -/

/-- Every batch entry ends in exactly one of the two outcomes: marked
and counted successful, or unmarked and counted failed. -/
theorem batchEntry_shape (auto watch : Bool) (env : BatchEnv) :
    processBatchEntry auto watch env = ⟨true, 1, 0⟩ ∨
    processBatchEntry auto watch env = ⟨false, 0, 1⟩ := by
  unfold processBatchEntry
  repeat' split
  all_goals simp

/-- A marked entry had an upload that returned and whose status was the
exact success status. -/
theorem batchEntry_marked_success (auto watch : Bool) (env : BatchEnv)
    (h : (processBatchEntry auto watch env).marked = true) :
    ∃ u, env.upload = Except.ok u ∧ u.status = some "success" := by
  unfold processBatchEntry at h
  repeat' split at h
  all_goals simp_all [commit_success]

/-- C7: in batch mode an entry is marked processed only when its upload
completed with the success status; an exception recorded at any stage,
or a non-success API status, leaves the entry unmarked and counted as
failed; and the loop still processes every entry (counters sum to the
batch length and one mark flag is produced per entry, in order). -/
theorem batch_marks_only_on_success :
    (∀ (auto watch : Bool) (env : BatchEnv),
      (processBatchEntry auto watch env).marked = true →
      ∃ u, env.upload = Except.ok u ∧ u.status = some "success") ∧
    (∀ (auto watch : Bool) (env : BatchEnv),
      ((∃ m, env.download = Except.error m) ∨ (∃ m, env.flatten = Except.error m) ∨
       (∃ m, env.recompress = Except.error m) ∨ (∃ m, env.move = Except.error m) ∨
       (env.torrentExists = false ∧ ∃ m, env.createTorrent = Except.error m) ∨
       (∃ m, env.readMetadata = Except.error m) ∨
       (∃ m, env.deriveFields = Except.error m) ∨
       (∃ m, env.upload = Except.error m) ∨
       (∃ u, env.upload = Except.ok u ∧ commit_success u.status = false)) →
      processBatchEntry auto watch env = ⟨false, 0, 1⟩) ∧
    (∀ (auto watch : Bool) (envs : List BatchEnv),
      (runBatch auto watch envs).1 + (runBatch auto watch envs).2.1 = envs.length ∧
      (runBatch auto watch envs).2.2.length = envs.length) ∧
    (∀ (auto watch : Bool) (envs : List BatchEnv) (i : Nat) (hi : i < envs.length),
      (runBatch auto watch envs).2.2.getD i false = true →
      ∃ u, (envs.get ⟨i, hi⟩).upload = Except.ok u ∧ u.status = some "success") := by
  refine ⟨batchEntry_marked_success, fun auto watch env hdisj => ?_, fun auto watch envs => ?_,
    fun auto watch envs i hi hflag => ?_⟩
  · rcases batchEntry_shape auto watch env with hshape | hshape
    · exfalso
      have hm : (processBatchEntry auto watch env).marked = true := by rw [hshape]
      obtain ⟨u, hu, hs⟩ := batchEntry_marked_success auto watch env hm
      rcases hdisj with ⟨m, hm'⟩ | ⟨m, hm'⟩ | ⟨m, hm'⟩ | ⟨m, hm'⟩ | ⟨hte, m, hm'⟩ |
        ⟨m, hm'⟩ | ⟨m, hm'⟩ | ⟨m, hm'⟩ | ⟨v, hv, hcs⟩
      · unfold processBatchEntry at hshape
        rw [hm'] at hshape
        simp at hshape
      · unfold processBatchEntry at hshape
        rw [hm'] at hshape
        repeat' split at hshape
        all_goals simp_all
      · unfold processBatchEntry at hshape
        rw [hm'] at hshape
        repeat' split at hshape
        all_goals simp_all
      · unfold processBatchEntry at hshape
        rw [hm'] at hshape
        repeat' split at hshape
        all_goals simp_all
      · unfold processBatchEntry at hshape
        rw [hte, hm'] at hshape
        repeat' split at hshape
        all_goals simp_all
      · unfold processBatchEntry at hshape
        rw [hm'] at hshape
        repeat' split at hshape
        all_goals simp_all
      · unfold processBatchEntry at hshape
        rw [hm'] at hshape
        repeat' split at hshape
        all_goals simp_all
      · rw [hm'] at hu
        exact Except.noConfusion hu
      · rw [hv] at hu
        have := Except.ok.inj hu
        rw [← this] at hs
        rw [hs] at hcs
        simp [commit_success] at hcs
    · exact hshape
  · induction envs with
    | nil => exact ⟨rfl, rfl⟩
    | cons env rest ih =>
      have hsum : (processBatchEntry auto watch env).successInc +
          (processBatchEntry auto watch env).failInc = 1 := by
        rcases batchEntry_shape auto watch env with h | h <;> rw [h] <;> rfl
      constructor
      · show (processBatchEntry auto watch env).successInc + (runBatch auto watch rest).1 +
          ((processBatchEntry auto watch env).failInc + (runBatch auto watch rest).2.1) =
          rest.length + 1
        have := ih.1
        omega
      · show ((processBatchEntry auto watch env).marked ::
            (runBatch auto watch rest).2.2).length = rest.length + 1
        simp [ih.2]
  · induction envs generalizing i with
    | nil => exact absurd hi (by simp)
    | cons env rest ih =>
      cases i with
      | zero =>
        have : (runBatch auto watch (env :: rest)).2.2.getD 0 false =
            (processBatchEntry auto watch env).marked := rfl
        rw [this] at hflag
        exact batchEntry_marked_success auto watch env hflag
      | succ j =>
        have : (runBatch auto watch (env :: rest)).2.2.getD (j + 1) false =
            (runBatch auto watch rest).2.2.getD j false := rfl
        rw [this] at hflag
        exact ih j (by simpa using hi) hflag

/-- A failing and a succeeding batch environment for the C7 witness. -/
def sampleFailEnv : BatchEnv :=
  ⟨Except.error "network down", Except.ok "p", Except.ok (), Except.ok "q", true,
    Except.ok "t", Except.ok (), Except.ok (), true, Except.ok ⟨some "success"⟩,
    Except.ok ()⟩

/-- A batch environment in which every stage succeeds. -/
def sampleOkEnv : BatchEnv :=
  ⟨Except.ok (some "folder"), Except.ok "p", Except.ok (), Except.ok "q", false,
    Except.ok "t", Except.ok (), Except.ok (), true, Except.ok ⟨some "success"⟩,
    Except.ok ()⟩

/-- Witness for C7 on a concrete two-entry batch: the failed first entry
leaves its flag unmarked, the successful second entry's mark implies its
upload succeeded. -/
theorem batch_marks_only_on_success_witness :
    (runBatch true false [sampleFailEnv, sampleOkEnv]).2.2.getD 1 false = true ∧
    (∃ u, ([sampleFailEnv, sampleOkEnv].get ⟨1, by decide⟩).upload = Except.ok u ∧
      u.status = some "success") ∧
    processBatchEntry true false sampleFailEnv = ⟨false, 0, 1⟩ :=
  ⟨rfl,
    batch_marks_only_on_success.2.2.2 true false [sampleFailEnv, sampleOkEnv] 1 (by decide) rfl,
    batch_marks_only_on_success.2.1 true false sampleFailEnv
      (Or.inl ⟨"network down", rfl⟩)⟩

/-! ## C8: acquisition detection by directory diff -/

/-- C8: `download_album` snapshots the subdirectory names before and
after the acquisition call; a non-zero acquisition exit propagates as an
error whose value is independent of the second snapshot; otherwise an
empty after−before difference yields `none` and a non-empty difference
yields the path of one of its elements. -/
theorem download_album_correct (dir : String)
    (before after : Option (List (String × Bool))) :
    (∀ after2, download_album dir before after2 false = Except.error ()) ∧
    (download_album dir before after true = Except.ok none ↔
      (get_existing_folders after).filter
        (fun n => !(get_existing_folders before).contains n) = []) ∧
    (∀ x, download_album dir before after true = Except.ok (some x) →
      ∃ n, x = pathJoin dir n ∧ n ∈ get_existing_folders after ∧
        n ∉ get_existing_folders before) := by
  refine ⟨fun after2 => rfl, ?_, fun x h => ?_⟩
  · simp only [download_album, Bool.not_true, Bool.false_eq_true, if_false]
    cases hf : (get_existing_folders after).filter
        (fun n => !(get_existing_folders before).contains n) with
    | nil => simp [hf]
    | cons y t => simp [hf]
  · simp only [download_album, Bool.not_true, Bool.false_eq_true, if_false] at h
    cases hf : (get_existing_folders after).filter
        (fun n => !(get_existing_folders before).contains n) with
    | nil =>
      rw [hf] at h
      exact absurd h (by simp)
    | cons y t =>
      rw [hf] at h
      have hx : x = pathJoin dir y := by
        have := Except.ok.inj h
        exact (Option.some.inj this).symm
      have hy : y ∈ (get_existing_folders after).filter
          (fun n => !(get_existing_folders before).contains n) := by
        rw [hf]
        exact List.mem_cons_self y t
      have hmem := List.mem_filter.mp hy
      refine ⟨y, hx, hmem.1, ?_⟩
      have := hmem.2
      simpa using this

/-- Witness for C8 at a concrete pair of snapshots ("b" is the one new
folder). -/
theorem download_album_correct_witness :
    download_album "dl" (some [("a", true), ("x", false)])
      (some [("a", true), ("b", true)]) true = Except.ok (some "dl/b") ∧
    (∃ n, "dl/b" = pathJoin "dl" n ∧
      n ∈ get_existing_folders (some [("a", true), ("b", true)]) ∧
      n ∉ get_existing_folders (some [("a", true), ("x", false)])) :=
  ⟨rfl,
    (download_album_correct "dl" (some [("a", true), ("x", false)])
      (some [("a", true), ("b", true)])).2.2 "dl/b" rfl⟩

end Qobuz2Red
